import Mathlib

/-!
Verification of the conversation-history management core of the ai-camp
notebooks (`1_basic_chatcompletions_example.ipynb`,
`2_managing_conversations.ipynb`): the token-count estimator
`num_tokens_from_messages`, the history trim loop, and the conversation
loop with its function-call branch, embedded shallowly in Lean.

The tokenizer (`tiktoken`'s `len(encoding.encode _)`) is an external
capability; it is modelled as an arbitrary function `tokLen : String → Nat`
passed as a parameter.  Concrete evaluations instantiate it with
`String.length`.
-/

namespace AICamp

/-- A chat message as it occurs in the notebooks' history lists.
Every message appended by the program is a Python dict of one of the two
shapes `{"role": r, "content": c}` or `{"role": r, "name": n, "content": c}`;
the assistant's `function_call` message is never appended to the history,
so no stored message carries a `function_call` field. -/
structure Message where
  role : String
  name : Option String
  content : Option String
deriving DecidableEq

/-- The key/value items of the message dict, in insertion order
(`role`, then `name` when present, then `content` when present),
mirroring Python's `message.items()`. -/
def msgItems (m : Message) : List (String × String) :=
  ("role", m.role) ::
    ((match m.name with
      | some n => [("name", n)]
      | none => []) ++
     (match m.content with
      | some c => [("content", c)]
      | none => []))

/-- The inner loop of `num_tokens_from_messages`:
`for key, value in message.items(): num_tokens += len(encoding.encode(value));
 if key == "name": num_tokens += -1`. -/
def itemsTokens (tokLen : String → Nat) : List (String × String) → Int
  | [] => 0
  | (k, v) :: rest =>
      (tokLen v : Int) + (if k = "name" then -1 else 0) + itemsTokens tokLen rest

/-- Per-message contribution: the fixed overhead 4 plus the items loop. -/
def messageTokens (tokLen : String → Nat) (m : Message) : Int :=
  4 + itemsTokens tokLen (msgItems m)

/-- `num_tokens_from_messages(messages)` from the notebooks: 4 per message,
plus the tokenized length of every value in the message dict (`role`
included), minus 1 whenever a `name` key is present, plus a final 2. -/
def num_tokens_from_messages (tokLen : String → Nat) (messages : List Message) : Int :=
  (messages.map (messageTokens tokLen)).sum + 2

/-- The trim loop on a history with head `a` fixed, structurally recursive
on the tail: `while num_tokens_from_messages(messages) > max_tokens:
messages.pop(1)`.  `pop(1)` on a list of length 1 raises `IndexError`,
leaving the list as it stands; the second component records such an error. -/
def trimTail (tokLen : String → Nat) (b : Int) (a : Message) :
    List Message → List Message × Option String
  | [] =>
      if num_tokens_from_messages tokLen [a] > b then ([a], some "IndexError")
      else ([a], none)
  | m :: rest =>
      if num_tokens_from_messages tokLen (a :: m :: rest) > b then
        trimTail tokLen b a rest
      else (a :: m :: rest, none)

/-- The trim loop of the conversation cells: repeatedly `pop(1)` while the
estimate exceeds `b`.  Returns the final list together with `some e` when
the loop aborted with an `IndexError` (fewer than two entries left while
still over budget). -/
def trim (tokLen : String → Nat) (b : Int) : List Message → List Message × Option String
  | [] =>
      if num_tokens_from_messages tokLen [] > b then ([], some "IndexError")
      else ([], none)
  | a :: rest => trimTail tokLen b a rest

/-- Fuel-indexed version of the trim loop: one unit of fuel per iteration
of the `while`.  `none` means the fuel ran out before the loop finished,
so `trimFuel … f ms = some r` certifies that the loop terminates within
`f` iterations with outcome `r`. -/
def trimFuel (tokLen : String → Nat) (b : Int) :
    Nat → List Message → Option (List Message × Option String)
  | 0, _ => none
  | fuel + 1, ms =>
      if num_tokens_from_messages tokLen ms > b then
        match ms with
        | a :: _ :: rest => trimFuel tokLen b fuel (a :: rest)
        | _ => some (ms, some "IndexError")
      else some (ms, none)

/-- The outcome of one generation call, as the conversation loop of the
function-calling notebook inspects it: either a plain assistant reply
(`finish_reason` ≠ `"function_call"`) or a function call carrying a name
and a JSON-text arguments string. -/
inductive GenResult where
  | reply (text : String)
  | functionCall (nm : String) (arguments : String)
deriving DecidableEq

/-- The branch of the conversation loop that runs after the generation
call returns, in the function-calling notebook.  `callTool` models the
external round trip `json.dumps(get_weather(**json.loads(args)))`;
`nextInput` models the `input()` read in the reply branch.  A function
call named `get_weather` appends exactly the one function-result message;
a function call with any other name appends nothing; a plain reply appends
the assistant message and then the next user message. -/
def handleResponse (callTool : String → String) (nextInput : String)
    (messages : List Message) (r : GenResult) : List Message :=
  match r with
  | .functionCall nm args =>
      if nm = "get_weather" then
        messages ++ [⟨"function", some "get_weather", some (callTool args)⟩]
      else messages
  | .reply t =>
      messages ++ [⟨"assistant", none, some t⟩, ⟨"user", none, some nextInput⟩]

/-- One iteration of the conversation loop: trim the history, then call
the external generation capability on the trimmed snapshot, then run the
response branch.  `gen` is fallible; when it fails the exception
propagates and the history is left exactly as it stood at the moment of
the call (the trimmed list), with no message appended. -/
def conversationStep (gen : List Message → Except String GenResult)
    (callTool : String → String) (nextInput : String)
    (tokLen : String → Nat) (b : Int) (h : List Message) :
    List Message × Option String :=
  match trim tokLen b h with
  | (t, some e) => (t, some e)
  | (t, none) =>
      match gen t with
      | .error e => (t, some e)
      | .ok r => (handleResponse callTool nextInput t r, none)

/-- Modelled from the spec (§4.1 Cost Estimator), for comparison with the
code's `num_tokens_from_messages`: per message, the overhead 4 plus the
tokenized lengths of exactly the textual attributes `content` and `name`
(minus 1 when `name` is present) — the `role` string does not contribute —
and an `EstimationError` when a message lacks both `content` and
`function_call` (no history message of this program carries a
`function_call`, so that case is `content = none`). -/
def specMessageTokens (tokLen : String → Nat) (m : Message) : Except String Int :=
  match m.content with
  | none => .error "EstimationError"
  | some c =>
      .ok (4 + (tokLen c : Int) +
        (match m.name with
         | some n => (tokLen n : Int) - 1
         | none => 0))

/-- Modelled from the spec (§4.1 Cost Estimator): the total estimate is
the sum of the spec's per-message costs plus the reply-priming 2, failing
with `EstimationError` on a malformed message. -/
def estimateSpec (tokLen : String → Nat) : List Message → Except String Int
  | [] => .ok 2
  | m :: rest =>
      match specMessageTokens tokLen m, estimateSpec tokLen rest with
      | .ok t, .ok ts => .ok (t + ts)
      | .error e, _ => .error e
      | .ok _, .error e => .error e

theorem num_tokens_cons (tokLen : String → Nat) (m : Message) (ms : List Message) :
    num_tokens_from_messages tokLen (m :: ms) =
      messageTokens tokLen m + num_tokens_from_messages tokLen ms := by
  simp [num_tokens_from_messages]; ring

theorem messageTokens_ge_three (tokLen : String → Nat) (m : Message) :
    3 ≤ messageTokens tokLen m := by
  obtain ⟨r, nm, c⟩ := m
  cases nm <;> cases c <;> simp [messageTokens, msgItems, itemsTokens] <;> omega

theorem num_tokens_pop_lt (tokLen : String → Nat) (a m : Message)
    (rest : List Message) :
    num_tokens_from_messages tokLen (a :: rest) <
      num_tokens_from_messages tokLen (a :: m :: rest) := by
  have h3 := messageTokens_ge_three tokLen m
  rw [num_tokens_cons, num_tokens_cons, num_tokens_cons]
  omega

theorem trimTail_fst_cons (tokLen : String → Nat) (b : Int) (a : Message)
    (l : List Message) : ∃ t, (trimTail tokLen b a l).1 = a :: t := by
  induction l with
  | nil =>
      by_cases h : num_tokens_from_messages tokLen [a] > b <;>
        exact ⟨[], by simp [trimTail, h]⟩
  | cons m rest ih =>
      by_cases h : num_tokens_from_messages tokLen (a :: m :: rest) > b
      · simpa [trimTail, h] using ih
      · exact ⟨m :: rest, by simp [trimTail, h]⟩

theorem trimTail_snd_none (tokLen : String → Nat) (b : Int) (a : Message)
    (l : List Message) (h : (trimTail tokLen b a l).2 = none) :
    num_tokens_from_messages tokLen (trimTail tokLen b a l).1 ≤ b := by
  induction l with
  | nil =>
      by_cases hc : num_tokens_from_messages tokLen [a] > b
      · simp [trimTail, hc] at h
      · simp [trimTail, hc]; omega
  | cons m rest ih =>
      by_cases hc : num_tokens_from_messages tokLen (a :: m :: rest) > b
      · simp only [trimTail, if_pos hc] at h ⊢; exact ih h
      · simp [trimTail, hc]; omega

theorem trimTail_snd_some (tokLen : String → Nat) (b : Int) (a : Message)
    (l : List Message) (h : (trimTail tokLen b a l).2 ≠ none) :
    (trimTail tokLen b a l).1 = [a] ∧
      b < num_tokens_from_messages tokLen [a] := by
  induction l with
  | nil =>
      by_cases hc : num_tokens_from_messages tokLen [a] > b
      · exact ⟨by simp [trimTail, hc], hc⟩
      · simp [trimTail, hc] at h
  | cons m rest ih =>
      by_cases hc : num_tokens_from_messages tokLen (a :: m :: rest) > b
      · simp only [trimTail, if_pos hc] at h ⊢; exact ih h
      · simp [trimTail, hc] at h

theorem trim_snd_none (tokLen : String → Nat) (b : Int) (ms : List Message)
    (h : (trim tokLen b ms).2 = none) :
    num_tokens_from_messages tokLen (trim tokLen b ms).1 ≤ b := by
  match ms with
  | [] =>
      by_cases hc : num_tokens_from_messages tokLen [] > b
      · simp [trim, hc] at h
      · simp [trim, hc]; omega
  | a :: rest => exact trimTail_snd_none tokLen b a rest h

theorem trim_noop_of_le (tokLen : String → Nat) (b : Int) (ms : List Message)
    (h : num_tokens_from_messages tokLen ms ≤ b) :
    trim tokLen b ms = (ms, none) := by
  have h' : ¬ num_tokens_from_messages tokLen ms > b := by omega
  match ms with
  | [] => simp [trim, h']
  | [a] => simp [trim, trimTail, h']
  | a :: m :: rest => simp [trim, trimTail, h']

theorem trimFuel_eq_trim_of_lt (tokLen : String → Nat) (b : Int) :
    ∀ (fuel : Nat) (ms : List Message), ms.length < fuel →
      trimFuel tokLen b fuel ms = some (trim tokLen b ms) := by
  intro fuel
  induction fuel with
  | zero => intro ms h; omega
  | succ f ih =>
      intro ms h
      match ms with
      | [] =>
          by_cases hc : num_tokens_from_messages tokLen [] > b <;>
            simp [trimFuel, trim, hc]
      | [a] =>
          by_cases hc : num_tokens_from_messages tokLen [a] > b <;>
            simp [trimFuel, trim, trimTail, hc]
      | a :: m :: rest =>
          by_cases hc : num_tokens_from_messages tokLen (a :: m :: rest) > b
          · have hlen : (a :: rest).length < f := by
              simp at h ⊢; omega
            simp only [trimFuel, if_pos hc, trim, trimTail]
            exact ih (a :: rest) hlen
          · simp [trimFuel, trim, trimTail, hc]

/-- C1: counterexample — with tokenizer `String.length` and budget 10, the
history `[system, user]` costs 33 > 10, so `trim` evicts the message at
index 1 (the most recent user message) and returns a history of length 1;
the claim's assertion that trim never shortens the history below length 2
(stopping at "system + most recent") is false: the code's loop has no
length guard at all. -/
theorem C1_counterexample :
    (trim (fun s => s.length) 10
      [⟨"s", none, some "c"⟩, ⟨"u", none, some "aaaaaaaaaaaaaaaaaaaa"⟩]).1 =
      [⟨"s", none, some "c"⟩] ∧
    ¬ (2 ≤ (trim (fun s => s.length) 10
      [⟨"s", none, some "c"⟩, ⟨"u", none, some "aaaaaaaaaaaaaaaaaaaa"⟩]).1.length) := by
  exact ⟨by decide, by decide⟩

/-- C1 (amended): the trim loop's stop condition is exactly
`cost ≤ budget`: whenever `trim` finishes without error the resulting
history's estimate is within budget; there is no length-2 floor — when the
budget cannot be met the loop evicts down to at most one entry and aborts
with an IndexError from `pop(1)`, the remaining history still over
budget. -/
theorem C1_trim_stop (tokLen : String → Nat) (b : Int) (ms : List Message) :
    ((trim tokLen b ms).2 = none →
      num_tokens_from_messages tokLen (trim tokLen b ms).1 ≤ b) ∧
    ((trim tokLen b ms).2 ≠ none →
      (trim tokLen b ms).1.length ≤ 1 ∧
      b < num_tokens_from_messages tokLen (trim tokLen b ms).1) := by
  constructor
  · exact trim_snd_none tokLen b ms
  · intro h
    match ms with
    | [] =>
        by_cases hc : num_tokens_from_messages tokLen [] > b
        · simp [trim, hc]
        · simp [trim, hc] at h
    | a :: rest =>
        obtain ⟨h1, h2⟩ := trimTail_snd_some tokLen b a rest h
        refine ⟨?_, ?_⟩
        · show (trimTail tokLen b a rest).1.length ≤ 1
          rw [h1]; simp
        · show b < num_tokens_from_messages tokLen (trimTail tokLen b a rest).1
          rw [h1]; exact h2

/-- C1 witness: the amended theorem applied at two concrete inputs — a
history trimmed to within budget 10, and a single over-budget message that
triggers the IndexError branch at budget 0. -/
theorem C1_trim_stop_witness :
    num_tokens_from_messages (fun s => s.length)
      (trim (fun s => s.length) 10
        [⟨"s", none, some "c"⟩, ⟨"u", none, some "aaaaaaaaaaaaaaaaaaaa"⟩]).1 ≤ 10 ∧
    ((trim (fun s => s.length) 0 [⟨"s", none, some "c"⟩]).1.length ≤ 1 ∧
      (0 : Int) < num_tokens_from_messages (fun s => s.length)
        (trim (fun s => s.length) 0 [⟨"s", none, some "c"⟩]).1) :=
  ⟨(C1_trim_stop (fun s => s.length) 10
      [⟨"s", none, some "c"⟩, ⟨"u", none, some "aaaaaaaaaaaaaaaaaaaa"⟩]).1 (by decide),
   (C1_trim_stop (fun s => s.length) 0 [⟨"s", none, some "c"⟩]).2 (by decide)⟩

/-- C2: the message at index 0 (the system message) survives every
sequence of trims: folding `trim` over the history with any list of
budgets keeps the original head, because eviction always removes the
message at index 1 (and `pop(1)` on a shorter list raises without removing
anything). -/
theorem C2_system_message_survives (tokLen : String → Nat) (bs : List Int)
    (a : Message) (rest : List Message) :
    (bs.foldl (fun h b => (trim tokLen b h).1) (a :: rest)).head? = some a := by
  induction bs generalizing rest with
  | nil => rfl
  | cons b bs ih =>
      obtain ⟨t, ht⟩ := trimTail_fst_cons tokLen b a rest
      have hstep : (trim tokLen b (a :: rest)).1 = a :: t := ht
      simp only [List.foldl_cons, hstep]
      exact ih t

/-- C3: counterexample — on the history `[{role:"user", content:"hi"}]`
with tokenizer `String.length`, the code's estimator iterates over every
dict item and therefore counts the role string "user" (4 units), returning
12, while the claim's formula (content/name/function_call only, role
excluded) gives 8. -/
theorem C3_counterexample :
    num_tokens_from_messages (fun s => s.length) [⟨"user", none, some "hi"⟩] = 12 ∧
    estimateSpec (fun s => s.length) [⟨"user", none, some "hi"⟩] = Except.ok 8 ∧
    (12 : Int) ≠ 8 :=
  ⟨by decide, rfl, by decide⟩

/-- C3 (amended): the estimator returns, per message, 4 plus the tokenized
lengths of ALL the message's attribute values — the role string included —
with the −1 adjustment when a name is present, plus the final
reply-priming 2. -/
theorem C3_estimator_closed_form (tokLen : String → Nat) (ms : List Message) :
    num_tokens_from_messages tokLen ms =
      (ms.map (fun m =>
        4 + (tokLen m.role : Int) +
        (match m.name with
         | some n => (tokLen n : Int) - 1
         | none => 0) +
        (match m.content with
         | some c => (tokLen c : Int)
         | none => 0))).sum + 2 := by
  have hmsg : ∀ m : Message, messageTokens tokLen m =
      4 + (tokLen m.role : Int) +
      (match m.name with
       | some n => (tokLen n : Int) - 1
       | none => 0) +
      (match m.content with
       | some c => (tokLen c : Int)
       | none => 0) := by
    intro m
    obtain ⟨r, nm, c⟩ := m
    cases nm <;> cases c <;> simp [messageTokens, msgItems, itemsTokens] <;> ring
  unfold num_tokens_from_messages
  rw [List.map_congr_left fun m _ => hmsg m]

/-- C4: strict FIFO — whenever the estimate of `s :: m1 :: rest` exceeds
the budget, the first eviction performed by the trim loop removes exactly
`m1`, the message at index 1, and trimming continues on `s :: rest`;
repeated application gives eviction in insertion order. -/
theorem C4_fifo_first_eviction (tokLen : String → Nat) (b : Int)
    (s m1 : Message) (rest : List Message)
    (h : num_tokens_from_messages tokLen (s :: m1 :: rest) > b) :
    trim tokLen b (s :: m1 :: rest) = trim tokLen b (s :: rest) := by
  simp [trim, trimTail, h]

/-- C4 witness: at budget 0 the two-message history is over budget and its
trim equals the trim of the history with the index-1 message removed. -/
theorem C4_fifo_first_eviction_witness :
    trim (fun s => s.length) 0
      [⟨"s", none, some "c"⟩, ⟨"u", none, some "d"⟩] =
      trim (fun s => s.length) 0 [⟨"s", none, some "c"⟩] :=
  C4_fifo_first_eviction (fun s => s.length) 0
    ⟨"s", none, some "c"⟩ ⟨"u", none, some "d"⟩ [] (by decide)

/-- C5: counterexample — a generation result that is a function call named
"foo" (not the registered "get_weather") causes the branch to append no
message at all: the history is unchanged and contains no function-result
message, refuting "exactly one function-result message whose name matches
the called function is appended" for that tool call. -/
theorem C5_counterexample :
    handleResponse (fun _ => "w") "inp" [] (GenResult.functionCall "foo" "x") = [] ∧
    (handleResponse (fun _ => "w") "inp" []
      (GenResult.functionCall "foo" "x")).length = 0 :=
  ⟨by decide, by decide⟩

/-- C5 (amended): when the generation call returns a tool call for the
registered function "get_weather", exactly one function-result message
with matching name is appended before the next generation call, no
assistant-reply message is appended, and no user input is consumed (the
branch's result is independent of the pending input); a tool call with any
other name appends nothing. -/
theorem C5_tool_call_branch (callTool : String → String) (i1 i2 : String)
    (h : List Message) (args : String) :
    handleResponse callTool i1 h (.functionCall "get_weather" args) =
      h ++ [⟨"function", some "get_weather", some (callTool args)⟩] ∧
    handleResponse callTool i1 h (.functionCall "get_weather" args) =
      handleResponse callTool i2 h (.functionCall "get_weather" args) := by
  constructor <;> simp [handleResponse]

/-- C6: counterexample — the estimator raises no error on a message
lacking both content and function_call: on `[{role:"user"}]` with
tokenizer `String.length` the code silently returns the cost 10
(4 + 4 for "user" + 2), while the spec-modelled estimator fails with
EstimationError. -/
theorem C6_counterexample :
    num_tokens_from_messages (fun s => s.length) [⟨"user", none, none⟩] = 10 ∧
    estimateSpec (fun s => s.length) [⟨"user", none, none⟩] =
      Except.error "EstimationError" :=
  ⟨by decide, rfl⟩

/-- C6 (amended): the code's estimator performs no validation: a message
lacking both content and function_call is silently costed at 4 plus the
tokenized length of its role string, in any surrounding history — no
failure is possible. -/
theorem C6_no_estimation_error (tokLen : String → Nat) (r : String)
    (ms : List Message) :
    num_tokens_from_messages tokLen (⟨r, none, none⟩ :: ms) =
      4 + (tokLen r : Int) + num_tokens_from_messages tokLen ms := by
  rw [num_tokens_cons]
  simp [messageTokens, msgItems, itemsTokens]
  try ring

/-- C7: counterexample — with tokenizer `String.length`, adding the name
"ab" to `{role:"user", content:"hi"}` gives cost 11, while the message
without the name costs 10: the cost went UP by 1, not down by 1, because
the name's own tokenized length is also added before the −1 adjustment. -/
theorem C7_counterexample :
    messageTokens (fun s => s.length) ⟨"user", some "ab", some "hi"⟩ = 11 ∧
    messageTokens (fun s => s.length) ⟨"user", none, some "hi"⟩ = 10 ∧
    (11 : Int) ≠ 10 - 1 :=
  ⟨by decide, by decide, by decide⟩

/-- C7 (amended): the presence of a name attribute changes the message's
estimated cost by (tokenized length of the name) − 1 relative to the
otherwise identical message without the name: the −1 adjustment applies on
top of the name's own token count, so the net change is −1 only when the
name tokenizes to 0 units. -/
theorem C7_name_adjustment (tokLen : String → Nat) (r : String)
    (c : Option String) (n : String) :
    messageTokens tokLen ⟨r, some n, c⟩ =
      messageTokens tokLen ⟨r, none, c⟩ + (tokLen n : Int) - 1 := by
  cases c <;> simp [messageTokens, msgItems, itemsTokens] <;> try ring

/-- C8: if the external generation call fails, the failure is surfaced to
the caller and the history is exactly the trimmed snapshot that was passed
to the call — no assistant, function-result, or user message is appended —
and retrying on that snapshot invokes the generator on exactly the same
list (its trim is a no-op), so no entries are duplicated. -/
theorem C8_generation_failure (gen : List Message → Except String GenResult)
    (callTool : String → String) (nextInput : String) (tokLen : String → Nat)
    (b : Int) (hist t : List Message) (e : String)
    (htrim : trim tokLen b hist = (t, none)) (hgen : gen t = .error e) :
    conversationStep gen callTool nextInput tokLen b hist = (t, some e) ∧
    ∀ gen2 : List Message → Except String GenResult, ∀ r : GenResult,
      gen2 t = .ok r →
      conversationStep gen2 callTool nextInput tokLen b t =
        (handleResponse callTool nextInput t r, none) := by
  have hcost : num_tokens_from_messages tokLen t ≤ b := by
    have := trim_snd_none tokLen b hist (by rw [htrim])
    rwa [htrim] at this
  constructor
  · simp [conversationStep, htrim, hgen]
  · intro gen2 r hr
    simp [conversationStep, trim_noop_of_le tokLen b t hcost, hr]

/-- C8 witness: a generator failing with "boom" on the already-in-budget
history `[system]` at budget 100 surfaces the failure with the history
unchanged. -/
theorem C8_generation_failure_witness :
    conversationStep (fun _ => Except.error "boom") (fun _ => "w") "inp"
      (fun s => s.length) 100 [⟨"s", none, some "c"⟩] =
      ([⟨"s", none, some "c"⟩], some "boom") :=
  (C8_generation_failure (fun _ => Except.error "boom") (fun _ => "w") "inp"
    (fun s => s.length) 100 [⟨"s", none, some "c"⟩] [⟨"s", none, some "c"⟩]
    "boom" (by decide) rfl).1

/-- C9: termination of the trim loop — with a tokenizer returning a
non-negative count (by type), every message contributes at least 3 units
to the estimate, evicting the message at index 1 strictly decreases the
estimate, and the fuel-indexed rendering of the `while` loop completes
within length + 1 iterations, agreeing with `trim` on every finite
history. -/
theorem C9_trim_terminates (tokLen : String → Nat) :
    (∀ m : Message, 3 ≤ messageTokens tokLen m) ∧
    (∀ (a m : Message) (rest : List Message),
      num_tokens_from_messages tokLen (a :: rest) <
        num_tokens_from_messages tokLen (a :: m :: rest)) ∧
    (∀ (b : Int) (ms : List Message),
      trimFuel tokLen b (ms.length + 1) ms = some (trim tokLen b ms)) :=
  ⟨messageTokens_ge_three tokLen,
   num_tokens_pop_lt tokLen,
   fun b ms => trimFuel_eq_trim_of_lt tokLen b (ms.length + 1) ms
     (Nat.lt_succ_self _)⟩

/-- C10: a generation result that is a function call with an unrecognized
name appends no message at all: the branch leaves the history unchanged,
and since that history was already within budget when the producing call
was issued, the next iteration's trim is a no-op, so the immediately
following generation call receives the identical history. -/
theorem C10_unknown_tool_frame (tokLen : String → Nat) (b : Int)
    (callTool : String → String) (nextInput : String) (t : List Message)
    (nm args : String) (hn : nm ≠ "get_weather")
    (hb : num_tokens_from_messages tokLen t ≤ b) :
    handleResponse callTool nextInput t (.functionCall nm args) = t ∧
    trim tokLen b (handleResponse callTool nextInput t (.functionCall nm args)) =
      (t, none) := by
  have h1 : handleResponse callTool nextInput t (.functionCall nm args) = t := by
    simp [handleResponse, hn]
  exact ⟨h1, by rw [h1]; exact trim_noop_of_le tokLen b t hb⟩

/-- C10 witness: a tool call named "foo" on the in-budget history
`[system]` leaves the history that the next generation call receives
unchanged. -/
theorem C10_unknown_tool_frame_witness :
    trim (fun s => s.length) 100
      (handleResponse (fun _ => "w") "inp" [⟨"s", none, some "c"⟩]
        (GenResult.functionCall "foo" "x")) =
      ([⟨"s", none, some "c"⟩], none) :=
  (C10_unknown_tool_frame (fun s => s.length) 100 (fun _ => "w") "inp"
    [⟨"s", none, some "c"⟩] "foo" "x" (by decide) (by decide)).2

end AICamp
